import Mathlib

/-!
Verification of the `todo-cli` task-list program against its design
specification.

The Rust sources embedded here:
  * `src/api.rs` — the `ToDoList` store (`tasks : Vec<T>`, `name : String`),
    the `Instruction` variant type, and `ToDoList::run` which dispatches one
    instruction against the store.  At the CLI entry point `T` is
    instantiated at `String`, so the embedding fixes the element type to
    `String`.
  * `src/cli.rs` — `parse`, which maps raw argument tokens to one
    `Instruction` via the `clap` argument matcher.
  * Persistence: `Drop for ToDoList` serialises the store with
    `serde_json::to_string_pretty`; the `Deserialize` derive reconstructs it.
    We embed the serde data mapping at the level of JSON values
    (`serde_json::Value`); rendering a value to text and parsing it back is
    the external `serde_json` library, not code of this repository.

Rust panics (unchecked indexing, `Vec::remove` out of bounds, `usize`
underflow of `i - 1` when `i = 0`, `Option::expect` on `None`) are modelled
explicitly: a result constructor records that the process panicked, carrying
the store state at the moment of unwinding (no mutation precedes any of the
panics in this code).
-/

/-- The task store of `src/api.rs` (`pub struct ToDoList<T>`), with the
generic element type instantiated at `String` as in the CLI entry point:
an ordered task sequence plus an owner name. -/
structure ToDoList where
  tasks : List String
  name : String
deriving Repr, DecidableEq

/-- The closed instruction variant of `src/api.rs` (`pub enum Instruction<T>`),
with `T = String`; indices are the Rust `usize` arguments, embedded as `Nat`. -/
inductive Instruction where
  | Add : String → Instruction
  | Remove : Nat → Instruction
  | Modify : Nat → String → Instruction
  | Print : Instruction
deriving Repr, DecidableEq

/-- One rendered line of the `Print` branch of `ToDoList::run`:
the header naming the owner, a table row pairing a 1-based index with a task
text, or the distinct message printed when the task list is empty
(`"No tasks to print for ..."`). -/
inductive Output where
  | header : String → Output
  | row : Nat → String → Output
  | noTasks : String → Output
deriving Repr, DecidableEq

/-- Outcome of `ToDoList::run`.  `ok` carries the store after the call and the
lines it printed; `panicked` records that the Rust process panicked
(out-of-bounds indexing in `self.tasks[i - 1] = t`, out-of-bounds
`Vec::remove`, or `usize` underflow of `i - 1` at `i = 0`), carrying the
store state at the moment of unwinding — none of these panics is preceded by
any mutation. -/
inductive RunResult where
  | ok : ToDoList → List Output → RunResult
  | panicked : ToDoList → RunResult
deriving Repr, DecidableEq

/-- The store carried by a `RunResult` (after the call, or at unwinding). -/
def RunResult.store : RunResult → ToDoList
  | .ok l _ => l
  | .panicked l => l

/-- Embedding of `ToDoList::run` from `src/api.rs`.
`Add t` pushes `t` at the end.  `Modify i t` executes `self.tasks[i - 1] = t`:
for `1 ≤ i ≤ len` this is `List.set (i-1) t`; otherwise the Rust code panics
(underflow of `i - 1` at `i = 0`, or index out of bounds).  `Remove i`
executes `self.tasks.remove(i - 1)` (`Vec::remove`, i.e. `List.eraseIdx`),
panicking on the same condition.  `Print` mutates nothing: on a non-empty
list it prints the owner header and one table row `(i+1, s)` per task, and on
an empty list the distinct no-tasks message. -/
def ToDoList.run (l : ToDoList) : Instruction → RunResult
  | .Add t => .ok { l with tasks := l.tasks ++ [t] } []
  | .Modify i t =>
      if 1 ≤ i ∧ i ≤ l.tasks.length then
        .ok { l with tasks := l.tasks.set (i - 1) t } []
      else
        .panicked l
  | .Remove i =>
      if 1 ≤ i ∧ i ≤ l.tasks.length then
        .ok { l with tasks := l.tasks.eraseIdx (i - 1) } []
      else
        .panicked l
  | .Print =>
      if l.tasks.isEmpty then
        .ok l [Output.noTasks l.name]
      else
        .ok l (Output.header l.name ::
          l.tasks.enum.map (fun p => Output.row (p.1 + 1) p.2))

/-- `ToDoList::new` from `src/api.rs`: an empty store owned by `name`. -/
def ToDoList.new (name : String) : ToDoList :=
  { tasks := [], name := name }

/-- Folding a sequence of `Add` instructions through `run`, threading the
store each `ok`/`panicked` result carries (an `Add` never panics, so the
thread is always the `ok` store). -/
def runAdds (l : ToDoList) (ts : List String) : ToDoList :=
  ts.foldl (fun acc t => (acc.run (.Add t)).store) l

/-- The argument matches `clap` v2 hands back to `src/cli.rs`: the matched
subcommand, if any, with its argument assignments (`value_of` looks a name up
in them). -/
structure ArgMatches where
  subcommand : Option (String × List (String × String))
deriving Repr, DecidableEq

/-- `clap::ArgMatches::subcommand_matches`: the argument assignments of the
named subcommand when it is the one that matched. -/
def ArgMatches.subcommandMatches (m : ArgMatches) (nm : String) :
    Option (List (String × String)) :=
  match m.subcommand with
  | some (n, args) => if n = nm then some args else none
  | none => none

/-- `clap::ArgMatches::value_of`: the value recorded for an argument name,
`none` when no argument of that name was matched (also when the subcommand
never declared such an argument). -/
def ArgMatches.valueOf (args : List (String × String)) (key : String) :
    Option String :=
  (args.find? (fun p => p.1 = key)).map (fun p => p.2)

/-- `clap::ArgMatches::is_present` on the top-level matches, as used for
`print` in `src/cli.rs`: true when the matched subcommand has that name. -/
def ArgMatches.isPresent (m : ArgMatches) (nm : String) : Bool :=
  match m.subcommand with
  | some (n, _) => n = nm
  | none => false

/-- The `clap_app!` matcher declared in `src/cli.rs`, applied to the raw
argument tokens (program name stripped).  The app declares subcommands
`print` (no arguments), `add` with required positional `NEW`, `rm` with
required positional `NUM`, and `modify` with required positional `NUM` and
required flagged `NEW` (`-n`/`--new`).  `clap` v2 does not require a
subcommand, so an empty token list matches with no subcommand; a missing
required argument, an unknown subcommand or surplus tokens make `clap`
report a usage error and exit non-zero, embedded as `Except.error`. -/
def clapMatch : List String → Except String ArgMatches
  | [] => .ok ⟨none⟩
  | ["print"] => .ok ⟨some ("print", [])⟩
  | ["add", t] => .ok ⟨some ("add", [("NEW", t)])⟩
  | ["rm", n] => .ok ⟨some ("rm", [("NUM", n)])⟩
  | ["modify", n, "--new", t] => .ok ⟨some ("modify", [("NUM", n), ("NEW", t)])⟩
  | ["modify", n, "-n", t] => .ok ⟨some ("modify", [("NUM", n), ("NEW", t)])⟩
  | _ => .error "clap usage error"

/-- Rust `usize::from_str`, as invoked by `.parse()` in `src/cli.rs`:
an optional leading `+` sign followed by decimal digits, rejecting values
that overflow the 64-bit `usize`. -/
def parseUsize (s : String) : Option Nat :=
  let digits :=
    match s.data with
    | '+' :: rest => rest
    | cs => cs
  if digits.isEmpty then none
  else if digits.all (fun c => 48 ≤ c.toNat && c.toNat ≤ 57) then
    let n := digits.foldl (fun acc c => 10 * acc + (c.toNat - 48)) 0
    if n < 2 ^ 64 then some n else none
  else none

/-- Outcome of `parse` in `src/cli.rs`: an instruction, a reportable failure
(an `Err` return through `?`/`bail!`, or `clap` exiting non-zero on a usage
error), or a process panic from `Option::expect` on `None`, carrying the
`expect` message. -/
inductive ParseOutcome where
  | ok : Instruction → ParseOutcome
  | err : String → ParseOutcome
  | panicked : String → ParseOutcome
deriving Repr, DecidableEq

/-- Embedding of `parse` from `src/cli.rs`.  After `clap` matching, the
dispatch checks the subcommands in source order.  `add` returns
`Add(value_of "NEW")`, panicking via `expect` if absent.  The `rm` branch —
exactly as the source is written — looks up `value_of("NEW")` (not `"NUM"`)
with `expect("Need task to add")`, then `.parse()?` the value.  `modify`
looks up `NUM`, `.parse()?` it, then `NEW`.  If `print` matched,
`Instruction::Print`; otherwise `bail!` with a parse-failure message. -/
def parse (tokens : List String) : ParseOutcome :=
  match clapMatch tokens with
  | .error e => .err e
  | .ok ms =>
    match ms.subcommandMatches "add" with
    | some args =>
        match ArgMatches.valueOf args "NEW" with
        | some t => .ok (.Add t)
        | none => .panicked "Need task to add"
    | none =>
      match ms.subcommandMatches "rm" with
      | some args =>
          match ArgMatches.valueOf args "NEW" with
          | some v =>
              match parseUsize v with
              | some k => .ok (.Remove k)
              | none => .err "invalid digit found in string"
          | none => .panicked "Need task to add"
      | none =>
        match ms.subcommandMatches "modify" with
        | some args =>
            match ArgMatches.valueOf args "NUM" with
            | some v =>
                match parseUsize v with
                | some k =>
                    match ArgMatches.valueOf args "NEW" with
                    | some t => .ok (.Modify k t)
                    | none => .panicked "Need task to modify to"
                | none => .err "invalid digit found in string"
            | none => .panicked "Need index of task to modify"
        | none =>
          if ms.isPresent "print" then .ok .Print
          else .err "Command-line arguments could not be parsed"

/-- JSON values, the embedding of `serde_json::Value`:
the serialisation target of the `Serialize`/`Deserialize` derives on
`ToDoList`.  Rendering a value to text (`to_string_pretty`) and parsing text
back to a value are the external `serde_json` library. -/
inductive Json where
  | null : Json
  | bool : Bool → Json
  | num : Int → Json
  | str : String → Json
  | arr : List Json → Json
  | obj : List (String × Json) → Json

/-- The first value recorded for a field name in a JSON object;
`none` on non-objects or absent fields. -/
def Json.getField : Json → String → Option Json
  | .obj fields, key => (fields.find? (fun p => p.1 = key)).map (fun p => p.2)
  | _, _ => none

/-- Decoding a JSON value as a string, as serde does for a `String` field. -/
def Json.asString : Json → Option String
  | .str s => some s
  | _ => none

/-- Decoding each element of a JSON array as a string, in order, failing on
the first non-string element — serde's element-wise visit of a sequence. -/
def decodeStringElems : List Json → Option (List String)
  | [] => some []
  | j :: js =>
    match j.asString with
    | none => none
    | some s =>
      match decodeStringElems js with
      | none => none
      | some ss => some (s :: ss)

/-- Decoding a JSON value as a sequence of strings, as serde does for a
`Vec<String>` field. -/
def Json.asStringList : Json → Option (List String)
  | .arr xs => decodeStringElems xs
  | _ => none

/-- The derived `Serialize` on `ToDoList` (as driven by
`serde_json::to_string_pretty` in the `Drop` impl of `src/api.rs`): an
object with the fields in declaration order, `tasks` as an array of strings
and `name` as a string. -/
def ToDoList.serialize (l : ToDoList) : Json :=
  .obj [("tasks", .arr (l.tasks.map Json.str)), ("name", .str l.name)]

/-- The derived `Deserialize` on `ToDoList`: reads the `tasks` field as a
sequence of strings and the `name` field as a string, failing on any
malformed value. -/
def ToDoList.deserialize (j : Json) : Option ToDoList :=
  match j.getField "tasks" with
  | none => none
  | some jt =>
    match jt.asStringList with
    | none => none
    | some ts =>
      match j.getField "name" with
      | none => none
      | some jn =>
        match jn.asString with
        | none => none
        | some n => some { tasks := ts, name := n }

/-- Modelled from the spec: the startup load of the persisted snapshot is
absent from `src/` — `src/main.rs` is a week-1 skeleton with no persistence
(`// TODO: Build persistence layer`), and only the save side (`Drop`) exists
in `src/api.rs`.  Per spec §6, at startup the program reads the fixed-name
file when present and deserialises it; absence of the file is not an error
but signals a first run, and the store initialises empty with the name
defaulted from the invoking user's identity. -/
def startup (fileContent : Option Json) (userName : String) :
    Except String ToDoList :=
  match fileContent with
  | none => .ok (ToDoList.new userName)
  | some j =>
    match ToDoList.deserialize j with
    | some l => .ok l
    | none => .error "could not deserialize persisted snapshot"

/-! ### General lemmas about the embedded operations -/

theorem decodeStringElems_map_str (ts : List String) :
    decodeStringElems (ts.map Json.str) = some ts := by
  induction ts with
  | nil => rfl
  | cons t ts ih => simp [decodeStringElems, ih, Json.asString]

theorem runAdds_eq (l : ToDoList) (ts : List String) :
    runAdds l ts = { tasks := l.tasks ++ ts, name := l.name } := by
  induction ts generalizing l with
  | nil => simp [runAdds]
  | cons t ts ih =>
      have h1 : runAdds l (t :: ts)
          = runAdds { tasks := l.tasks ++ [t], name := l.name } ts := rfl
      rw [h1, ih]
      simp

/-! ### The claims -/

/-- C1.  The claim states that `Remove(i)`/`Modify(i, t)` with `i < 1` or
`i > len(tasks)` fails with a reportable `IndexOutOfRange` error and does not
panic the process.  The code disagrees: `ToDoList::run` has return type `()`
with no error channel at all, and out-of-range indices panic the process
(`Vec::remove` out of bounds for `rm`, slice-index out of bounds or `usize`
underflow of `i - 1` for `modify`).  This theorem evaluates the embedding at
the spec's own scenario (`rm 1` on the empty store) and at out-of-range
`Modify`/`Remove` on a singleton store: each run panics, with the store
unmutated at the moment of unwinding. -/
theorem run_out_of_range_panics_not_reportable :
    (ToDoList.new "Hari").run (.Remove 1) = .panicked (ToDoList.new "Hari") ∧
    ToDoList.run { tasks := ["a"], name := "Hari" } (.Modify 2 "x")
      = .panicked { tasks := ["a"], name := "Hari" } ∧
    ToDoList.run { tasks := ["a"], name := "Hari" } (.Remove 0)
      = .panicked { tasks := ["a"], name := "Hari" } := by
  decide

/-- C2.  The claim states that `parse` always yields one instruction or a
reportable `ParseError`, never a crash.  The code disagrees on the well-formed
command `rm 1`: the `rm` branch of `src/cli.rs` looks up `value_of("NEW")`,
but the `rm` subcommand only declares the argument `NUM`, so the lookup is
`None` and `.expect("Need task to add")` panics the process. -/
theorem parse_rm_panics_on_misnamed_arg :
    parse ["rm", "1"] = .panicked "Need task to add" := by
  decide

/-- C3.  Round-trip: deserialising the serialisation of any store state —
the empty store included — succeeds and reproduces the task sequence and the
owner name exactly. -/
theorem deserialize_serialize_roundtrip (l : ToDoList) :
    ToDoList.deserialize (ToDoList.serialize l) = some l := by
  have h : Json.asStringList (.arr (l.tasks.map Json.str)) = some l.tasks := by
    simp [Json.asStringList, decodeStringElems_map_str]
  simp [ToDoList.deserialize, ToDoList.serialize, Json.getField, Json.asString, h]

/-- C4.  `Add(t)` always succeeds and appends `t` at the end of the task
sequence; folding any sequence of `Add`s over the empty store yields exactly
the added texts, in insertion order, so the length equals the number of adds. -/
theorem add_appends_preserving_order :
    (∀ (l : ToDoList) (t : String),
        l.run (.Add t) = .ok { tasks := l.tasks ++ [t], name := l.name } []) ∧
    (∀ (owner : String) (ts : List String),
        (runAdds (ToDoList.new owner) ts).tasks = ts ∧
        (runAdds (ToDoList.new owner) ts).tasks.length = ts.length) := by
  refine ⟨fun l t => rfl, fun owner ts => ?_⟩
  rw [runAdds_eq]
  simp [ToDoList.new]

/-- C5.  When no persisted file is present at startup, the program reports no
error: the store initialises with an empty task sequence and the owner name
defaulted from the invoking user's identity.  (Settled against the
spec-modelled `startup`, the load side being absent from `src/`.) -/
theorem startup_absent_file_first_run (userName : String) :
    startup none userName = .ok { tasks := [], name := userName } := by
  rfl

/-- C6.  `Print` mutates nothing: the store it returns is the store it was
given.  On an empty task list it renders the distinct no-tasks message
instead of a table; and every task of the list is rendered as a row paired
with its 1-based index. -/
theorem print_reads_without_mutation (l : ToDoList) :
    ∃ out, l.run .Print = .ok l out ∧
      (l.tasks = [] → out = [Output.noTasks l.name]) ∧
      (l.tasks ≠ [] → Output.header l.name ∈ out ∧
        ∀ i s, l.tasks[i]? = some s → Output.row (i + 1) s ∈ out) := by
  by_cases h : l.tasks = []
  · refine ⟨[Output.noTasks l.name], ?_, fun _ => rfl, fun hne => absurd h hne⟩
    simp [ToDoList.run, h]
  · refine ⟨Output.header l.name ::
      l.tasks.enum.map (fun p => Output.row (p.1 + 1) p.2), ?_, fun he => absurd he h,
      fun _ => ⟨List.mem_cons_self _ _, fun i s hs => ?_⟩⟩
    · simp [ToDoList.run, h]
    · refine List.mem_cons_of_mem _ ?_
      refine List.mem_map.2 ⟨(i, s), ?_, rfl⟩
      exact List.mk_mem_enum_iff_getElem?.2 hs

/-- Witness for C6, at the empty store and at a singleton store. -/
theorem print_reads_without_mutation_holds :
    (∃ out, (ToDoList.new "H").run .Print = .ok (ToDoList.new "H") out ∧
      out = [Output.noTasks "H"]) ∧
    (∃ out, ToDoList.run { tasks := ["a"], name := "H" } .Print
        = .ok { tasks := ["a"], name := "H" } out ∧
      Output.row 1 "a" ∈ out) := by
  constructor
  · obtain ⟨out, h1, h2, _⟩ := print_reads_without_mutation (ToDoList.new "H")
    exact ⟨out, h1, h2 rfl⟩
  · obtain ⟨out, h1, _, h3⟩ :=
      print_reads_without_mutation { tasks := ["a"], name := "H" }
    obtain ⟨_, hrow⟩ := h3 (by decide)
    exact ⟨out, h1, hrow 0 "a" (by decide)⟩

/-- C7.  The spec's scenario: from the empty store, `Add "buy milk"`,
`Add "walk dog"`, `Modify 1 "buy oat milk"`, then `Print` yields the task
sequence `["buy oat milk", "walk dog"]` and renders the rows
`1: buy oat milk` and `2: walk dog`. -/
theorem scenario_add_add_modify_print :
    (((((ToDoList.new "Hari").run (.Add "buy milk")).store.run
          (.Add "walk dog")).store.run (.Modify 1 "buy oat milk")).store.run .Print)
      = .ok { tasks := ["buy oat milk", "walk dog"], name := "Hari" }
          [Output.header "Hari", Output.row 1 "buy oat milk",
            Output.row 2 "walk dog"] := by
  decide

/-- C8.  With a valid 1-based index `1 ≤ i ≤ len`, `Remove i` succeeds,
keeps the owner name, shrinks the task sequence by one, and — when the
removed text occupied its positions uniquely (count 1) — the text no longer
occurs anywhere in the sequence. -/
theorem remove_valid_index_shrinks (l : ToDoList) (i : Nat)
    (h1 : 1 ≤ i) (h2 : i ≤ l.tasks.length) :
    ∃ l', l.run (.Remove i) = .ok l' [] ∧ l'.name = l.name ∧
      l'.tasks.length = l.tasks.length - 1 ∧
      (∀ s, l.tasks[i - 1]? = some s → l.tasks.count s = 1 → s ∉ l'.tasks) := by
  have hlt : i - 1 < l.tasks.length := by omega
  refine ⟨{ l with tasks := l.tasks.eraseIdx (i - 1) }, ?_, rfl, ?_, ?_⟩
  · simp [ToDoList.run, h1, h2]
  · simp [List.length_eraseIdx, hlt]
  · intro s hs hcount
    have hget : l.tasks[i - 1] = s := by
      have := List.getElem?_eq_getElem hlt
      rw [this] at hs
      exact Option.some_injective _ hs
    have hdrop : l.tasks.drop (i - 1) = s :: l.tasks.drop (i - 1 + 1) := by
      rw [List.drop_eq_getElem_cons hlt, hget]
    have hsplit : l.tasks = l.tasks.take (i - 1) ++ (s :: l.tasks.drop (i - 1 + 1)) := by
      rw [← hdrop, List.take_append_drop]
    have hc : l.tasks.count s
        = ((l.tasks.take (i - 1)).count s + (l.tasks.drop (i - 1 + 1)).count s) + 1 := by
      conv_lhs => rw [hsplit]
      rw [List.count_append, List.count_cons_self]
      omega
    have htake : (l.tasks.take (i - 1)).count s = 0 := by omega
    have hdrop0 : (l.tasks.drop (i - 1 + 1)).count s = 0 := by omega
    have herase : l.tasks.eraseIdx (i - 1)
        = l.tasks.take (i - 1) ++ l.tasks.drop (i - 1 + 1) :=
      List.eraseIdx_eq_take_drop_succ l.tasks (i - 1)
    intro hmem
    simp only [herase, List.mem_append] at hmem
    rcases hmem with hm | hm
    · exact absurd (List.count_eq_zero.1 htake) (fun hn => hn hm)
    · exact absurd (List.count_eq_zero.1 hdrop0) (fun hn => hn hm)

/-- Witness for C8: removing index 1 from a two-element store. -/
theorem remove_valid_index_shrinks_holds :
    ∃ l', ToDoList.run { tasks := ["a", "b"], name := "H" } (.Remove 1)
        = .ok l' [] ∧ l'.name = "H" ∧ l'.tasks.length = 1 ∧ "a" ∉ l'.tasks := by
  obtain ⟨l', h1, h2, h3, h4⟩ :=
    remove_valid_index_shrinks { tasks := ["a", "b"], name := "H" } 1
      (by decide) (by decide)
  exact ⟨l', h1, h2, h3, h4 "a" (by decide) (by decide)⟩

/-- C9.  With a valid 1-based index `1 ≤ i ≤ len`, `Modify i t` succeeds and
replaces exactly the element at position `i`: the owner name, the length and
every element at a position other than `i` are unchanged, and position `i`
now holds `t`. -/
theorem modify_valid_index_replaces (l : ToDoList) (i : Nat) (t : String)
    (h1 : 1 ≤ i) (h2 : i ≤ l.tasks.length) :
    ∃ l', l.run (.Modify i t) = .ok l' [] ∧ l'.name = l.name ∧
      l'.tasks.length = l.tasks.length ∧
      l'.tasks[i - 1]? = some t ∧
      ∀ j, j ≠ i - 1 → l'.tasks[j]? = l.tasks[j]? := by
  have hlt : i - 1 < l.tasks.length := by omega
  refine ⟨{ l with tasks := l.tasks.set (i - 1) t }, ?_, rfl, ?_, ?_, ?_⟩
  · simp [ToDoList.run, h1, h2]
  · simp [List.length_set]
  · exact List.getElem?_set_eq_of_lt t hlt
  · intro j hj
    exact List.getElem?_set_ne (fun he => hj he.symm)

/-- Witness for C9: modifying index 1 of a two-element store. -/
theorem modify_valid_index_replaces_holds :
    ∃ l', ToDoList.run { tasks := ["a", "b"], name := "H" } (.Modify 1 "c")
        = .ok l' [] ∧ l'.name = "H" ∧ l'.tasks.length = 2 ∧
      l'.tasks[0]? = some "c" ∧ l'.tasks[1]? = some "b" := by
  obtain ⟨l', h1, h2, h3, h4, h5⟩ :=
    modify_valid_index_replaces { tasks := ["a", "b"], name := "H" } 1 "c"
      (by decide) (by decide)
  exact ⟨l', h1, h2, h3, h4, (h5 1 (by decide)).trans (by decide)⟩

/-- C10.  No instruction run against the store ever changes the owner name:
whether the run returns normally or panics, the store it leaves behind keeps
the name it started with. -/
theorem run_preserves_owner_name (l : ToDoList) (inst : Instruction) :
    ((l.run inst).store).name = l.name := by
  cases inst <;> simp only [ToDoList.run] <;>
    first
      | rfl
      | (split <;> rfl)
